import Mathlib

/-!
Shallow embedding of `@typhonjs-utils/logger-color` (`src/ColorLogger.js`) and
verification of its specification claims.

The embedding models the JavaScript semantics the source relies on:
dynamically typed values (`JSVal`), `typeof`, string coercion, truthiness,
property lookup on the frozen level tables including the `Object.prototype`
chain, and the pure rendering pipeline of `ColorLogger.#output`.  The two
impure inputs of a render call — the current date and the stack text of a
synthesized `Error` — are passed in explicitly as an `Env`.  The console sink
is modelled as the list of `console.log` calls a method performs.
-/

/-- Model of the JavaScript values the logger manipulates.  Plain objects and
arrays appear in the claims only through `typeof`, property-key coercion and
`JSON.stringify`, so they are modelled by the strings those operations
produce for them: `obj compactJson prettyJson` carries the result of
`JSON.stringify(x)` and `JSON.stringify(x, null, 3)`; `arr` additionally
carries the `Array.prototype.toString` form.  `fn display` is a function
value with its source-text form; `err message stack` is an `Error` instance
(stacks are modelled as always being strings, the situation exercised by the
repository). -/
inductive JSVal where
  | str (s : String)
  | num (n : Int)
  | bool (b : Bool)
  | null
  | undefined
  | obj (compactJson prettyJson : String)
  | arr (compactJson prettyJson arrToString : String)
  | fn (display : String)
  | err (message stack : String)
deriving DecidableEq

/-- JavaScript `typeof` for the modelled values. -/
def jsTypeof : JSVal → String
  | .str _ => "string"
  | .num _ => "number"
  | .bool _ => "boolean"
  | .null => "object"
  | .undefined => "undefined"
  | .obj _ _ => "object"
  | .arr _ _ _ => "object"
  | .fn _ => "function"
  | .err _ _ => "object"

/-- JavaScript `ToString`, used for template literals and property-key
coercion.  `Error.prototype.toString` yields `"Error: <message>"`. -/
def jsToString : JSVal → String
  | .str s => s
  | .num n => n.repr
  | .bool b => if b then "true" else "false"
  | .null => "null"
  | .undefined => "undefined"
  | .obj _ _ => "[object Object]"
  | .arr _ _ t => t
  | .fn d => d
  | .err m _ => "Error: " ++ m

/-- JavaScript truthiness for the modelled values. -/
def jsTruthy : JSVal → Bool
  | .str s => !(s == "")
  | .num n => !(n == 0)
  | .bool b => b
  | .null => false
  | .undefined => false
  | .obj _ _ => true
  | .arr _ _ _ => true
  | .fn _ => true
  | .err _ _ => true

/-- JavaScript `Number.isInteger`.  The model restricts JS numbers to
integers (every number the logger produces or compares is an integral level
rank), so this is exactly "is a number value". -/
def numberIsInteger : JSVal → Bool
  | .num _ => true
  | _ => false

/-- Own properties of `ColorLogger.#LOG_LEVELS` (log level name → rank). -/
def LOG_LEVELS (k : String) : Option Int :=
  if k = "off" then some 8
  else if k = "fatal" then some 7
  else if k = "error" then some 6
  else if k = "warn" then some 5
  else if k = "info" then some 4
  else if k = "verbose" then some 3
  else if k = "debug" then some 2
  else if k = "trace" then some 1
  else if k = "all" then some 0
  else none

/-- Own properties of `ColorLogger.#LOG_LEVEL_STRINGS` (rank, coerced to a
property key, → log level name). -/
def LOG_LEVEL_STRINGS (k : String) : Option String :=
  if k = "8" then some "off"
  else if k = "7" then some "fatal"
  else if k = "6" then some "error"
  else if k = "5" then some "warn"
  else if k = "4" then some "info"
  else if k = "3" then some "verbose"
  else if k = "2" then some "debug"
  else if k = "1" then some "trace"
  else if k = "0" then some "all"
  else none

/-- Properties inherited from `Object.prototype`.  The two frozen level
tables are plain object literals, so a property read that misses their own
properties continues into `Object.prototype`; its standard data properties
are the built-in methods below (function values) and the `__proto__`
accessor (an object value).  This inheritance is what `setLogLevel` is
exposed to. -/
def objectProtoGet (k : String) : Option JSVal :=
  if k = "constructor" then some (.fn "function Object() \x7b [native code] \x7d")
  else if k = "toString" ∨ k = "toLocaleString" ∨ k = "valueOf" ∨ k = "hasOwnProperty"
      ∨ k = "isPrototypeOf" ∨ k = "propertyIsEnumerable" ∨ k = "__defineGetter__"
      ∨ k = "__defineSetter__" ∨ k = "__lookupGetter__" ∨ k = "__lookupSetter__" then
    some (.fn ("function " ++ k ++ "() \x7b [native code] \x7d"))
  else if k = "__proto__" then some (.obj "\x7b\x7d" "\x7b\x7d")
  else none

/-- Property read `ColorLogger.#LOG_LEVELS[key]` with an arbitrary JS value
as key: the key is coerced to a string, own properties are consulted first,
then the `Object.prototype` chain, and a miss yields `undefined`. -/
def logLevelsGet (key : JSVal) : JSVal :=
  match LOG_LEVELS (jsToString key) with
  | some n => .num n
  | none =>
    match objectProtoGet (jsToString key) with
    | some v => v
    | none => .undefined

/-- Property read `ColorLogger.#LOG_LEVEL_STRINGS[key]`. -/
def logLevelStringsGet (key : JSVal) : JSVal :=
  match LOG_LEVEL_STRINGS (jsToString key) with
  | some s => .str s
  | none =>
    match objectProtoGet (jsToString key) with
    | some v => v
    | none => .undefined

/-- Static method `ColorLogger.#IS_LEVEL_ENABLED(currentLevel, requestedLevel)`:
`Number.isInteger(currentLevel) && Number.isInteger(requestedLevel) &&
currentLevel <= requestedLevel`.  Because the `<=` is only reached when both
operands are (integer) numbers, this is exactly the following match. -/
def IS_LEVEL_ENABLED : JSVal → JSVal → Bool
  | .num a, .num b => a ≤ b
  | _, _ => false

/-- Method `ColorLogger.isValidLevel(level)`:
`typeof level === 'string' && typeof ColorLogger.#LOG_LEVELS[level] === 'number'`. -/
def isValidLevel (level : JSVal) : Bool :=
  jsTypeof level == "string" && jsTypeof (logLevelsGet level) == "number"

/-- The nine canonical level names, in the order in which the source lists
them. -/
def canonicalLevelNames : List String :=
  ["off", "fatal", "error", "warn", "info", "verbose", "debug", "trace", "all"]

/-- Test of Lean-level substring containment: `listContains s pat` is true
iff `pat` occurs contiguously inside `s`.  This models the regular
expression `/ColorLogger\.js/`, whose pattern is a literal. -/
def listContains (s pat : List Char) : Bool :=
  if pat.isPrefixOf s then true
  else
    match s with
    | [] => false
    | _ :: t => listContains t pat

/-- A stack line "originates from ColorLogger": the test
`ColorLogger.#REGEX_COLOR_LOGGER.test(line)` with pattern `/ColorLogger\.js/`. -/
def isSelfLine (line : String) : Bool :=
  listContains line.data "ColorLogger.js".data

/-- Character class `[\w\d\-_.]` of the locator regex: ASCII word
characters, digits, `-`, `_` and `.`. -/
def isLocatorClassChar (c : Char) : Bool :=
  c.isAlphanum || c == '_' || c == '-' || c == '.'

/-- Attempt of the regex `([\w\d\-_.]*:\d+:\d+)` at one start position.
The character class excludes `:` and digits are inside the class, so the
greedy runs never need to backtrack: the attempt succeeds iff the maximal
class run is followed by `:`, one or more digits, `:`, one or more digits,
and the captured group is that prefix of the input. -/
def locatorMatchAt (cs : List Char) : Option (List Char) :=
  let run := cs.takeWhile isLocatorClassChar
  match cs.dropWhile isLocatorClassChar with
  | ':' :: r1 =>
    let d1 := r1.takeWhile Char.isDigit
    if d1 = [] then none
    else
      match r1.dropWhile Char.isDigit with
      | ':' :: r3 =>
        let d2 := r3.takeWhile Char.isDigit
        if d2 = [] then none
        else some (run ++ ':' :: (d1 ++ ':' :: d2))
      | _ => none
  | _ => none

/-- Leftmost match of the locator regex over a list of characters, as
`String.prototype.match` performs it: start positions are tried left to
right. -/
def locatorSearchList : List Char → Option (List Char)
  | [] => none
  | c :: cs =>
    match locatorMatchAt (c :: cs) with
    | some m => some m
    | none => locatorSearchList cs

/-- Search `line.match(/([\w\d\-_.]*:\d+:\d+)/)`, returning the captured group
(which here equals the whole match) or `none`. -/
def locatorSearch (line : String) : Option String :=
  match locatorSearchList line.data with
  | some m => some ⟨m⟩
  | none => none

/-- Join with a separator, as `Array.prototype.join` performs it on an
array of strings. -/
def joinSep (sep : String) : List String → String
  | [] => ""
  | [x] => x
  | x :: y :: xs => x ++ sep ++ joinSep sep (y :: xs)

/-- First loop of `ColorLogger.#PARSE_STACK_TRACE`: advance `cntr` over the
lines, skipping every ColorLogger line; on the first remaining line with a
locator match, stop with the captured group and the lines from the matched
line onward (the `break` leaves `cntr` at the matched line).  `none` means
the loop ran off the end. -/
def scanLocator : List String → Option (String × List String)
  | [] => none
  | l :: ls =>
    if isSelfLine l then scanLocator ls
    else
      match locatorSearch l with
      | some m => some (m, l :: ls)
      | none => scanLocator ls

/-- Both loops of `ColorLogger.#PARSE_STACK_TRACE` after the `split('\n')`:
the second loop continues from the same `cntr` (the matched line included)
and pushes every non-ColorLogger line into `trace`. -/
def parseStackLines (lines : List String) : String × String :=
  match scanLocator lines with
  | some (m, rest) => (m, joinSep "\n" (rest.filter (fun l => !isSelfLine l)))
  | none => ("no stack trace", "")

/-- Accumulator pass of `jsSplit`: emit a piece at every separator, and the
final accumulated piece at the end of input. -/
def jsSplitAux (sep : Char) : List Char → List Char → List String
  | [], acc => [⟨acc.reverse⟩]
  | c :: cs, acc =>
    if c = sep then ⟨acc.reverse⟩ :: jsSplitAux sep cs []
    else jsSplitAux sep cs (c :: acc)

/-- JavaScript `String.prototype.split` with a one-character separator:
`''.split(sep)` is `['']`, a trailing separator contributes a final empty
piece. -/
def jsSplit (sep : Char) (s : String) : List String :=
  jsSplitAux sep s.data []

/-- Static method `ColorLogger.#PARSE_STACK_TRACE(stack)`, returning `(info, trace)`
(`stack.split('\n')`, then the two scanning loops). -/
def PARSE_STACK_TRACE (stack : String) : String × String :=
  parseStackLines (jsSplit '\n' stack)

/-- The current date, as the fields read off a JS `Date` in `#output`
(`month0` is the zero-based `getMonth()`). -/
structure DateParts where
  fullYear : Nat
  month0 : Nat
  date : Nat
  hours : Nat
  minutes : Nat
  seconds : Nat
  ms : Nat
deriving DecidableEq

/-- The impure inputs of one logging call: the current date and the stack
text a synthesized `new Error()` captures inside the call. -/
structure Env where
  date : DateParts
  stack : String
deriving DecidableEq

/-- The zero-padding `#output` applies to each date field:
`if (x < 10) x = `0${x}`;`. -/
def pad2 (n : Nat) : String :=
  if n < 10 then "0" ++ n.repr else n.repr

/-- The timestamp `#output` renders:
`[${year}-${month}-${date}T${hour}:${minutes}:${sec}.${ms}Z] `. -/
def formatNow (d : DateParts) : String :=
  "[" ++ d.fullYear.repr ++ "-" ++ pad2 (d.month0 + 1) ++ "-" ++ pad2 d.date ++ "T"
    ++ pad2 d.hours ++ ":" ++ pad2 d.minutes ++ ":" ++ pad2 d.seconds ++ "."
    ++ d.ms.repr ++ "Z] "

/-- Method `ColorLogger.#getTraceInfo(error)`: an `Error` argument has its own
stack parsed; any other argument makes the method synthesize an `Error`
capturing the current stack (`Env.stack`).  The model has no eventbus
collaborator assigned (`this._eventbus === undefined` in the core), so the
local parser is always used, and stacks are modelled as strings. -/
def getTraceInfo (env : Env) (error : JSVal) : String × String :=
  match error with
  | .err _ stack => PARSE_STACK_TRACE stack
  | _ => PARSE_STACK_TRACE env.stack

/-- The `#options` record of a logger, with the six fields the constructor
initializes.  Fields hold JS values: the display flags are booleans in every
reachable state, and `tag` starts out as `undefined`. -/
structure ColorLoggerOptions where
  consoleEnabled : JSVal
  noColor : JSVal
  showDate : JSVal
  showInfo : JSVal
  showLevel : JSVal
  tag : JSVal
deriving DecidableEq

/-- A `ColorLogger` instance's private mutable state: `#logLevel` (a JS
value — a number in every intended state) and `#options`. -/
structure ColorLogger where
  logLevel : JSVal
  options : ColorLoggerOptions
deriving DecidableEq

/-- The option defaults the constructor assigns before applying the caller's
options. -/
def defaultOptions : ColorLoggerOptions :=
  { consoleEnabled := .bool true
    noColor := .bool false
    showDate := .bool false
    showInfo := .bool false
    showLevel := .bool false
    tag := .undefined }

/-- Property read on a caller-supplied plain options object (own properties,
then the `Object.prototype` chain, then `undefined`). -/
def objPropGet (fields : List (String × JSVal)) (k : String) : JSVal :=
  match fields.lookup k with
  | some v => v
  | none =>
    match objectProtoGet k with
    | some v => v
    | none => .undefined

/-- Method `ColorLogger.setOptions(options)` on an options object: each recognized
field overwrites the current value only when its type matches (`boolean` for
the five flags, `string` for `tag`); everything else is ignored. -/
def setOptions (st : ColorLogger) (opts : List (String × JSVal)) : ColorLogger :=
  let o0 := st.options
  let o1 := if jsTypeof (objPropGet opts "consoleEnabled") == "boolean" then
      { o0 with consoleEnabled := objPropGet opts "consoleEnabled" } else o0
  let o2 := if jsTypeof (objPropGet opts "noColor") == "boolean" then
      { o1 with noColor := objPropGet opts "noColor" } else o1
  let o3 := if jsTypeof (objPropGet opts "showDate") == "boolean" then
      { o2 with showDate := objPropGet opts "showDate" } else o2
  let o4 := if jsTypeof (objPropGet opts "showInfo") == "boolean" then
      { o3 with showInfo := objPropGet opts "showInfo" } else o3
  let o5 := if jsTypeof (objPropGet opts "showLevel") == "boolean" then
      { o4 with showLevel := objPropGet opts "showLevel" } else o4
  let o6 := if jsTypeof (objPropGet opts "tag") == "string" then
      { o5 with tag := objPropGet opts "tag" } else o5
  { st with options := o6 }

/-- The state of `new ColorLogger()` with no options: the defaults plus
`#logLevel = ColorLogger.#LOG_LEVELS['info']`. -/
def defaultColorLogger : ColorLogger :=
  { logLevel := .num 4, options := defaultOptions }

/-- Construction `new ColorLogger(options)` with an options object: defaults, then
`setOptions(options)`. -/
def mkColorLogger (opts : List (String × JSVal)) : ColorLogger :=
  setOptions defaultColorLogger opts

/-- One `console.log` call: either a single already-formatted string or, in
raw mode, the spread of the original message values. -/
inductive SinkWrite where
  | line (s : String)
  | rawVals (vs : List JSVal)
deriving DecidableEq

/-- Method `ColorLogger.setLogLevel(level)`: look the key up in `#LOG_LEVELS`
(prototype chain included); only a result of `undefined` or `null` is
rejected with a diagnostic `console.log`; any other result — the rank
numbers, but also values inherited from `Object.prototype` — is stored in
`#logLevel` and reported as success.  Returns
(returned boolean, new state, console writes). -/
def setLogLevel (st : ColorLogger) (level : JSVal) :
    Bool × ColorLogger × List SinkWrite :=
  let requestedLevel := logLevelsGet level
  if requestedLevel == .undefined || requestedLevel == .null then
    (false, st,
      [.line ("@typhonjs-utils/logger-color - setLogLevel - unknown log level: "
        ++ jsToString level)])
  else
    (true, { st with logLevel := requestedLevel }, [])

/-- Method `ColorLogger.getLogLevel()`: `#LOG_LEVEL_STRINGS[this.#logLevel]`. -/
def getLogLevel (st : ColorLogger) : JSVal :=
  logLevelStringsGet st.logLevel

/-- Method `ColorLogger.isLevelEnabled(level)`: rejects a lookup result of
`undefined` or `null` with a diagnostic, otherwise defers to
`#IS_LEVEL_ENABLED`. -/
def isLevelEnabled (st : ColorLogger) (level : JSVal) : Bool × List SinkWrite :=
  let requestedLevel := logLevelsGet level
  if jsTypeof requestedLevel == "undefined" || requestedLevel == .null then
    (false, [.line ("isLevelEnabled - unknown log level: " ++ jsToString level)])
  else
    (IS_LEVEL_ENABLED st.logLevel requestedLevel, [])

/-- The `#options` record as the JS object `JSON.stringify` walks, in
insertion order of the constructor. -/
def optionsToObj (o : ColorLoggerOptions) : List (String × JSVal) :=
  [("consoleEnabled", o.consoleEnabled), ("noColor", o.noColor),
   ("showDate", o.showDate), ("showInfo", o.showInfo),
   ("showLevel", o.showLevel), ("tag", o.tag)]

/-- Effect of `JSON.parse(JSON.stringify(·))` on one property value of a
flat object: properties valued `undefined` or a function are omitted by
`JSON.stringify`; booleans, numbers, strings and `null` round-trip to equal
values; an object or array value round-trips to a JSON-equal fresh value
(same model datum here); an `Error` has no enumerable own properties and
serializes as an empty JSON object. -/
def jsonRoundTripVal : JSVal → Option JSVal
  | .undefined => none
  | .fn _ => none
  | .err _ _ => some (.obj "\x7b\x7d" "\x7b\x7d")
  | v => some v

/-- Round trip `JSON.parse(JSON.stringify(fields))` on a flat object. -/
def jsonRoundTripObj (fields : List (String × JSVal)) : List (String × JSVal) :=
  fields.filterMap (fun kv =>
    match jsonRoundTripVal kv.2 with
    | some v => some (kv.1, v)
    | none => none)

/-- Method `ColorLogger.getOptions()`: `JSON.parse(JSON.stringify(this.#options))`,
as the field list of the fresh object it builds. -/
def getOptions (st : ColorLogger) : List (String × JSVal) :=
  jsonRoundTripObj (optionsToObj st.options)

/-- A minimal object heap for the aliasing content of the options getter:
JS objects live at indices of `objs`, and `JSON.parse` always allocates a
fresh object.  The logger's `#options` object occupies one cell; a returned
copy occupies another. -/
structure Heap where
  objs : List (List (String × JSVal))
deriving DecidableEq

/-- Field list of the object at reference `r`. -/
def hget (h : Heap) (r : Nat) : List (String × JSVal) :=
  (h.objs.get? r).getD []

/-- Mutation of the object at reference `r` (property writes on a returned
copy). -/
def hset (h : Heap) (r : Nat) (o : List (String × JSVal)) : Heap :=
  ⟨h.objs.set r o⟩

/-- Operation `getOptions` with its allocation made explicit: read the `#options`
object at `optionsRef`, round-trip it through JSON, and return the reference
of the freshly allocated copy. -/
def getOptionsAlloc (h : Heap) (optionsRef : Nat) : Heap × Nat :=
  (⟨h.objs ++ [jsonRoundTripObj (hget h optionsRef)]⟩, h.objs.length)

/-- The seven severities the private `#output` is invoked with: every call
site (`fatal` … `trace` and the 28 `ext` variants) passes one of these
literals. -/
inductive MLevel where
  | fatal
  | error
  | warn
  | info
  | debug
  | verbose
  | trace
deriving DecidableEq

/-- The level-name literal a call site passes to `#output`. -/
def levelName : MLevel → String
  | .fatal => "fatal"
  | .error => "error"
  | .warn => "warn"
  | .info => "info"
  | .debug => "debug"
  | .verbose => "verbose"
  | .trace => "trace"

/-- The rank `#LOG_LEVELS` assigns to each `#output` severity. -/
def levelRank : MLevel → Int
  | .fatal => 7
  | .error => 6
  | .warn => 5
  | .info => 4
  | .debug => 2
  | .verbose => 3
  | .trace => 1

/-- Table `ColorLogger.#LEVEL_TO_COLOR` (ANSI escape per severity). -/
def LEVEL_TO_COLOR : MLevel → String
  | .fatal => "\x1b[1;31m"
  | .error => "\x1b[31m"
  | .warn => "\x1b[33m"
  | .info => "\x1b[32m"
  | .debug => "\x1b[34m"
  | .verbose => "\x1b[35m"
  | .trace => "\x1b[1;36m"

/-- Table `ColorLogger.#LEVEL_TO_TYPE` (level marker per severity). -/
def LEVEL_TO_TYPE : MLevel → String
  | .fatal => "[F]"
  | .error => "[E]"
  | .warn => "[W]"
  | .info => "[I]"
  | .debug => "[D]"
  | .verbose => "[V]"
  | .trace => "[T]"

/-- One message value as it ends up inside `text.join('\n')` in `#output`'s
non-raw loop: a non-`Error` object (or array, or `null`) is serialized with
`JSON.stringify` — compact or 3-space-indented; an `Error` contributes
`message + '\n' + trace`; anything else is pushed as-is and coerced by
`join` (which renders `undefined` as the empty string). -/
def renderMsg (env : Env) (compact : Bool) (m : JSVal) : String :=
  match m with
  | .obj c p => if compact then c else p
  | .arr c p _ => if compact then c else p
  | .null => "null"
  | .err msg stack => msg ++ "\n" ++ (getTraceInfo env (.err msg stack)).2
  | .str s => s
  | .num n => n.repr
  | .bool b => if b then "true" else "false"
  | .undefined => ""
  | .fn d => d

/-- The string `log` that `ColorLogger.#output` builds once the threshold
gate has passed, verbatim from the source: the non-raw message loop, the
color choice (`noColor || nocolor`), call-site info (`showInfo`, non-raw),
the always-on trace suffix for the `trace` severity, the timestamp
(`time || (showDate && !raw)`), the tag and the level marker (non-raw),
concatenated in the fixed order
`color, tag, levelTag, now, info, text.join('\n'), trace, reset`. -/
def renderLog (env : Env) (st : ColorLogger) (level : MLevel)
    (compact nocolor raw time : Bool) (msg : List JSVal) : String :=
  let text : List String := if raw then [] else msg.map (renderMsg env compact)
  let isTrace := level == MLevel.trace
  let color := if jsTruthy st.options.noColor || nocolor then "" else LEVEL_TO_COLOR level
  let traceInfoRes := getTraceInfo env .undefined
  let info := if jsTruthy st.options.showInfo && !raw then "[" ++ traceInfoRes.1 ++ "] " else ""
  let trace := if isTrace then "\n" ++ traceInfoRes.2 ++ "\n" else ""
  let now := if time || (jsTruthy st.options.showDate && !raw) then formatNow env.date else ""
  let tag :=
    if !raw && (match st.options.tag with | .str s => !(s == "") | _ => false) then
      "[" ++ jsToString st.options.tag ++ "] "
    else ""
  let levelTag := if !raw && jsTruthy st.options.showLevel then LEVEL_TO_TYPE level ++ " " else ""
  color ++ tag ++ levelTag ++ now ++ info ++ joinSep "\n" text ++ trace ++ "\x1b[0m"

/-- The conditional sink write at the end of `#output`: nothing when
`consoleEnabled` is falsy; `console.log(...msg)` — the original values — in
raw mode; `console.log(log)` otherwise. -/
def sinkWrites (st : ColorLogger) (raw : Bool) (log : String) (msg : List JSVal) :
    List SinkWrite :=
  if jsTruthy st.options.consoleEnabled then
    if raw then [SinkWrite.rawVals msg] else [SinkWrite.line log]
  else []

/-- Method `ColorLogger.#output(level, compact, nocolor, raw, time, ...msg)`.
Returns the value the method returns (`none` is JS `undefined`) and the
`console.log` calls it performs.  The threshold gate runs first and returns
`undefined` with no work at all on a disabled level; otherwise the method
builds `renderLog`, performs `sinkWrites` and returns the string whether or
not it was written. -/
def output (env : Env) (st : ColorLogger) (level : MLevel)
    (compact nocolor raw time : Bool) (msg : List JSVal) :
    Option String × List SinkWrite :=
  if !(IS_LEVEL_ENABLED st.logLevel (logLevelsGet (.str (levelName level)))) then
    (none, [])
  else
    let log := renderLog env st level compact nocolor raw time msg
    (some log, sinkWrites st raw log msg)

/-- Methods `logger.fatal(...msg)` … `logger.trace(...msg)`: the seven public
methods, all flags false. -/
def logMethod (st : ColorLogger) (env : Env) (level : MLevel) (msg : List JSVal) :
    Option String × List SinkWrite :=
  output env st level false false false false msg

/-- The `ext` `*Compact` variants: `#output(level, true, false, false, false, ...msg)`. -/
def extCompact (st : ColorLogger) (env : Env) (level : MLevel) (msg : List JSVal) :
    Option String × List SinkWrite :=
  output env st level true false false false msg

/-- The `ext` `*NoColor` variants: `#output(level, false, true, false, false, ...msg)`. -/
def extNoColor (st : ColorLogger) (env : Env) (level : MLevel) (msg : List JSVal) :
    Option String × List SinkWrite :=
  output env st level false true false false msg

/-- The `ext` `*Raw` variants: `#output(level, false, true, true, false, ...msg)`. -/
def extRaw (st : ColorLogger) (env : Env) (level : MLevel) (msg : List JSVal) :
    Option String × List SinkWrite :=
  output env st level false true true false msg

/-- The `ext` `*Time` variants: `#output(level, false, false, false, true, ...msg)`. -/
def extTime (st : ColorLogger) (env : Env) (level : MLevel) (msg : List JSVal) :
    Option String × List SinkWrite :=
  output env st level false false false true msg

/-- On the seven severities `#output` is called with, the `#LOG_LEVELS`
lookup hits the own table and yields the severity's rank. -/
theorem logLevelsGet_levelName (lvl : MLevel) :
    logLevelsGet (.str (levelName lvl)) = .num (levelRank lvl) := by
  cases lvl <;> rfl

/-- C3: `isValidLevel` is true exactly on the nine canonical level names
(as string values); every non-string value and every other string yields
`false`.  The function is total (never throws): the `typeof` guard keeps
non-strings away from the table lookup. -/
theorem isValidLevel_iff_canonical (v : JSVal) :
    isValidLevel v = true ↔ ∃ s, v = JSVal.str s ∧ s ∈ canonicalLevelNames := by
  cases v with
  | str s =>
    simp only [isValidLevel, jsTypeof, logLevelsGet, jsToString, LOG_LEVELS,
      objectProtoGet, canonicalLevelNames]
    split_ifs <;> simp_all
  | _ => simp [isValidLevel, jsTypeof]

/-- C4: the name→rank table and the rank→name table are mutual inverses
over the nine canonical names, through the actual property reads (key
coercion included); the ranks are exactly off=8, fatal=7, error=6, warn=5,
info=4, verbose=3, debug=2, trace=1, all=0, so the scale is totally ordered
with `off` highest and `all` lowest. -/
theorem log_level_tables_mutual_inverses :
    (canonicalLevelNames.map (fun nm => logLevelsGet (.str nm)) =
      [.num 8, .num 7, .num 6, .num 5, .num 4, .num 3, .num 2, .num 1, .num 0]) ∧
    (canonicalLevelNames.all
      (fun nm => logLevelStringsGet (logLevelsGet (.str nm)) == .str nm) = true) ∧
    ((List.range 9).all
      (fun r => logLevelsGet (logLevelStringsGet (.num (r : Int))) == .num (r : Int)) = true) := by
  refine ⟨?_, ?_, ?_⟩ <;> decide

/-- C5: `#IS_LEVEL_ENABLED` is true exactly when both arguments are
(integer) numbers with current ≤ requested; any non-number argument makes it
false rather than failing; threshold rank 0 (`all`) enables the request of
every severity, and threshold rank 8 (`off`) enables only the rank of
`off` itself among the nine levels. -/
theorem is_level_enabled_characterization :
    (∀ u v : JSVal, IS_LEVEL_ENABLED u v = true ↔
      ∃ a b : Int, u = .num a ∧ v = .num b ∧ a ≤ b) ∧
    (∀ u v : JSVal, numberIsInteger u = false ∨ numberIsInteger v = false →
      IS_LEVEL_ENABLED u v = false) ∧
    (canonicalLevelNames.all
      (fun nm => IS_LEVEL_ENABLED (.num 0) (logLevelsGet (.str nm))) = true) ∧
    (canonicalLevelNames.all
      (fun nm => IS_LEVEL_ENABLED (.num 8) (logLevelsGet (.str nm)) == (nm == "off")) = true) := by
  refine ⟨?_, ?_, by decide, by decide⟩
  · intro u v
    cases u <;> cases v <;> simp [IS_LEVEL_ENABLED]
  · intro u v h
    cases u <;> cases v <;> simp_all [IS_LEVEL_ENABLED, numberIsInteger]

/-- Witness for `is_level_enabled_characterization` at concrete inputs: a
string argument is not an integer, and the predicate returns false on it. -/
theorem is_level_enabled_characterization_witness :
    (numberIsInteger (.str "warn") = false ∨ numberIsInteger (.num 5) = false) ∧
    IS_LEVEL_ENABLED (.str "warn") (.num 5) = false :=
  ⟨Or.inl (by decide),
   is_level_enabled_characterization.2.1 (.str "warn") (.num 5) (Or.inl (by decide))⟩

/-- C2 (the code's slip): `setLogLevel('constructor')` — not a canonical
level name, and rejected by `isValidLevel` — nevertheless returns `true`,
emits no diagnostic, and overwrites `#logLevel` with the function value
inherited from `Object.prototype.constructor`.  The corrupted threshold is
not a number (contradicting the field's documented `@type {number}`),
`getLogLevel()` afterwards returns `undefined`, and every severity is
disabled. -/
theorem setLogLevel_constructor_bug :
    ("constructor" ∈ canonicalLevelNames ↔ False) ∧
    isValidLevel (.str "constructor") = false ∧
    (setLogLevel defaultColorLogger (.str "constructor")).1 = true ∧
    (setLogLevel defaultColorLogger (.str "constructor")).2.2 = [] ∧
    (setLogLevel defaultColorLogger (.str "constructor")).2.1.logLevel =
      .fn "function Object() \x7b [native code] \x7d" ∧
    (setLogLevel defaultColorLogger (.str "constructor")).2.1.logLevel ≠
      defaultColorLogger.logLevel ∧
    numberIsInteger (setLogLevel defaultColorLogger (.str "constructor")).2.1.logLevel = false ∧
    getLogLevel (setLogLevel defaultColorLogger (.str "constructor")).2.1 = .undefined ∧
    (isLevelEnabled (setLogLevel defaultColorLogger (.str "constructor")).2.1 (.str "fatal")).1
      = false := by
  refine ⟨by decide, by decide, by decide, by decide, by decide, by decide, by decide, ?_, ?_⟩
  · decide
  · decide

/-- C1: at threshold `warn` (rank 5), `info(...)` returns JS `undefined`
and performs no sink write (the gate returns before any formatting work),
while `warn(...)` and `error(...)` return a rendered string and, when
`consoleEnabled` is truthy, write exactly that string to the sink; in
general any `#output` call — whatever its variant flags — whose severity
rank is strictly below the numeric threshold returns the sentinel with no
writes. -/
theorem threshold_gate_warn (env : Env) (st : ColorLogger) (msg : List JSVal)
    (h5 : st.logLevel = .num 5) :
    logMethod st env .info msg = (none, []) ∧
    (∃ s, (logMethod st env .warn msg).1 = some s ∧
      (jsTruthy st.options.consoleEnabled = true →
        (logMethod st env .warn msg).2 = [SinkWrite.line s])) ∧
    (∃ s, (logMethod st env .error msg).1 = some s ∧
      (jsTruthy st.options.consoleEnabled = true →
        (logMethod st env .error msg).2 = [SinkWrite.line s])) ∧
    (∀ (st' : ColorLogger) (cur : Int) (lvl : MLevel) (c n r t : Bool)
        (msg' : List JSVal), st'.logLevel = .num cur → levelRank lvl < cur →
      output env st' lvl c n r t msg' = (none, [])) := by
  refine ⟨?_, ?_, ?_, ?_⟩
  · simp [logMethod, output, h5, logLevelsGet_levelName, IS_LEVEL_ENABLED, levelRank]
  · refine ⟨renderLog env st .warn false false false false msg, ?_, ?_⟩
    · simp [logMethod, output, h5, logLevelsGet_levelName, IS_LEVEL_ENABLED, levelRank]
    · intro hc
      simp [logMethod, output, sinkWrites, h5, logLevelsGet_levelName, IS_LEVEL_ENABLED,
        levelRank, hc]
  · refine ⟨renderLog env st .error false false false false msg, ?_, ?_⟩
    · simp [logMethod, output, h5, logLevelsGet_levelName, IS_LEVEL_ENABLED, levelRank]
    · intro hc
      simp [logMethod, output, sinkWrites, h5, logLevelsGet_levelName, IS_LEVEL_ENABLED,
        levelRank, hc]
  · intro st' cur lvl c n r t msg' hcur hlt
    simp only [output, hcur, logLevelsGet_levelName, IS_LEVEL_ENABLED]
    have hne : ¬ (cur ≤ levelRank lvl) := by omega
    simp [hne]

/-- Witness for `threshold_gate_warn`: a default-configured logger moved to
threshold rank 5 suppresses `info`. -/
theorem threshold_gate_warn_witness :
    ({ logLevel := .num 5, options := defaultOptions } : ColorLogger).logLevel = .num 5 ∧
    logMethod { logLevel := .num 5, options := defaultOptions }
      ⟨⟨2024, 0, 1, 0, 0, 0, 0⟩, "stack"⟩ .info [.str "hi"] = (none, []) :=
  ⟨rfl,
   (threshold_gate_warn ⟨⟨2024, 0, 1, 0, 0, 0, 0⟩, "stack"⟩
     { logLevel := .num 5, options := defaultOptions } [.str "hi"] rfl).1⟩

/-- C9: an enabled raw-variant call at a severity other than `trace`
bypasses the message loop entirely: the returned string is exactly the
reset escape (and, were the time flag ever combined with raw inside
`#output`, the timestamp followed by the reset), containing none of the
message values, while the sink — when `consoleEnabled` is truthy — receives
the original unformatted values, which is never the write of the returned
string. -/
theorem raw_variant_return_sink_divergence (env : Env) (st : ColorLogger)
    (lvl : MLevel) (msg : List JSVal) (hn : lvl ≠ MLevel.trace)
    (hen : IS_LEVEL_ENABLED st.logLevel (logLevelsGet (.str (levelName lvl))) = true) :
    extRaw st env lvl msg =
      (some "\x1b[0m",
        if jsTruthy st.options.consoleEnabled then [SinkWrite.rawVals msg] else []) ∧
    (∀ time : Bool, output env st lvl false true true time msg =
      (some ((if time then formatNow env.date else "") ++ "\x1b[0m"),
        if jsTruthy st.options.consoleEnabled then [SinkWrite.rawVals msg] else [])) ∧
    (jsTruthy st.options.consoleEnabled = true →
      (extRaw st env lvl msg).2 = [SinkWrite.rawVals msg] ∧
      ∀ s : String, [SinkWrite.rawVals msg] ≠ [SinkWrite.line s]) := by
  have hb : (lvl == MLevel.trace) = false := by
    cases lvl <;> simp_all
  have hgen : ∀ time : Bool, output env st lvl false true true time msg =
      (some ((if time then formatNow env.date else "") ++ "\x1b[0m"),
        if jsTruthy st.options.consoleEnabled then [SinkWrite.rawVals msg] else []) := by
    intro time
    cases time <;>
      simp [output, renderLog, sinkWrites, hen, hb, joinSep, String.empty_append,
        String.append_empty, Bool.or_true]
  refine ⟨?_, hgen, ?_⟩
  · simpa using hgen false
  · intro hc
    refine ⟨?_, fun s => by simp⟩
    rw [extRaw, hgen false]
    simp [hc]

/-- The ASCII escape character that introduces every ANSI color code. -/
def escChar : Char := '\x1b'

/-- Digit characters are produced by `Nat.digitChar` below base 10. -/
theorem digitChar_isDigit (m : Nat) (h : m < 10) : (Nat.digitChar m).isDigit = true := by
  interval_cases m <;> decide

/-- Every character `Nat.toDigitsCore` emits over base 10 is a digit. -/
theorem toDigitsCore_isDigit (fuel : Nat) : ∀ (n : Nat) (ds : List Char),
    (∀ c ∈ ds, c.isDigit = true) →
    ∀ c ∈ Nat.toDigitsCore 10 fuel n ds, c.isDigit = true := by
  induction fuel with
  | zero =>
    intro n ds hds c hc
    simp only [Nat.toDigitsCore] at hc
    exact hds c hc
  | succ fuel ih =>
    intro n ds hds c hc
    simp only [Nat.toDigitsCore] at hc
    have hd : ∀ c ∈ (n % 10).digitChar :: ds, c.isDigit = true := by
      intro c hc
      rcases List.mem_cons.mp hc with h | h
      · subst h; exact digitChar_isDigit _ (Nat.mod_lt _ (by norm_num))
      · exact hds c h
    by_cases hz : n / 10 = 0
    · rw [if_pos hz] at hc
      exact hd c hc
    · rw [if_neg hz] at hc
      exact ih (n / 10) _ hd c hc

/-- Every character of `Nat.repr n` is a digit. -/
theorem repr_isDigit (n : Nat) : ∀ c ∈ (Nat.repr n).data, c.isDigit = true := by
  intro c hc
  exact toDigitsCore_isDigit (n + 1) n [] (by simp) c hc

/-- The escape character never occurs in the decimal form of a natural
number. -/
theorem escChar_not_mem_repr (n : Nat) : escChar ∉ (Nat.repr n).data := by
  intro hmem
  have := repr_isDigit n escChar hmem
  simp [escChar, Char.isDigit] at this

/-- Membership distributes over string concatenation. -/
theorem mem_data_append {c : Char} {a b : String} :
    c ∈ (a ++ b).data ↔ c ∈ a.data ∨ c ∈ b.data := by
  rw [String.data_append, List.mem_append]

/-- The escape character never occurs in a zero-padded date field. -/
theorem escChar_not_mem_pad2 (n : Nat) : escChar ∉ (pad2 n).data := by
  unfold pad2
  split_ifs
  · intro hmem
    rcases mem_data_append.mp hmem with h | h
    · simp [escChar] at h
    · exact escChar_not_mem_repr n h
  · exact escChar_not_mem_repr n

/-- Non-membership distributes over string concatenation. -/
theorem not_mem_data_append {c : Char} {a b : String}
    (ha : c ∉ a.data) (hb : c ∉ b.data) : c ∉ (a ++ b).data := by
  rw [String.data_append]
  intro hmem
  rcases List.mem_append.mp hmem with h | h
  · exact ha h
  · exact hb h

/-- The escape character never occurs in the timestamp `#output` renders. -/
theorem escChar_not_mem_formatNow (d : DateParts) : escChar ∉ (formatNow d).data := by
  unfold formatNow
  repeat' apply not_mem_data_append
  all_goals first
    | decide
    | exact escChar_not_mem_repr _
    | exact escChar_not_mem_pad2 _

/-- The escape character stays out of a newline-join of escape-free
strings. -/
theorem escChar_not_mem_joinSep (L : List String)
    (hL : ∀ s ∈ L, escChar ∉ s.data) : escChar ∉ (joinSep "\n" L).data := by
  induction L with
  | nil => simp [joinSep]
  | cons x xs ih =>
    cases xs with
    | nil => simpa [joinSep] using hL x (by simp)
    | cons y ys =>
      rw [joinSep]
      apply not_mem_data_append
      · apply not_mem_data_append
        · exact hL x (by simp)
        · decide
      · exact ih (fun s hs => hL s (List.mem_cons_of_mem x hs))

/-- The level markers contain no escape character. -/
theorem escChar_not_mem_LEVEL_TO_TYPE (lvl : MLevel) :
    escChar ∉ (LEVEL_TO_TYPE lvl).data := by
  cases lvl <;> decide

/-- C6 as stated is false: with the global `noColor` option off, a no-color
variant call whose message contains the severity's color escape returns a
string containing that color escape (message content passes through
verbatim), so "never contains a color escape sequence" fails. -/
theorem no_color_variant_counterexample :
    jsTruthy defaultColorLogger.options.noColor = false ∧
    (extNoColor defaultColorLogger ⟨⟨2024, 0, 1, 0, 0, 0, 0⟩, "stk"⟩ .error
        [.str "\x1b[31m"]).1 = some "\x1b[31m\x1b[0m" ∧
    listContains "\x1b[31m\x1b[0m".data (LEVEL_TO_COLOR .error).data = true ∧
    escChar ∈ "\x1b[31m\x1b[0m".data := by
  exact ⟨rfl, rfl, by decide, by decide⟩

/-- Everything `renderLog` places before the trailing reset escape, as one
named string (the same lets as `renderLog`; `renderLog` is definitionally
this prefix followed by `"\x1b[0m"`). -/
def renderLogPre (env : Env) (st : ColorLogger) (level : MLevel)
    (compact nocolor raw time : Bool) (msg : List JSVal) : String :=
  let text : List String := if raw then [] else msg.map (renderMsg env compact)
  let isTrace := level == MLevel.trace
  let color := if jsTruthy st.options.noColor || nocolor then "" else LEVEL_TO_COLOR level
  let traceInfoRes := getTraceInfo env .undefined
  let info := if jsTruthy st.options.showInfo && !raw then "[" ++ traceInfoRes.1 ++ "] " else ""
  let trace := if isTrace then "\n" ++ traceInfoRes.2 ++ "\n" else ""
  let now := if time || (jsTruthy st.options.showDate && !raw) then formatNow env.date else ""
  let tag :=
    if !raw && (match st.options.tag with | .str s => !(s == "") | _ => false) then
      "[" ++ jsToString st.options.tag ++ "] "
    else ""
  let levelTag := if !raw && jsTruthy st.options.showLevel then LEVEL_TO_TYPE level ++ " " else ""
  color ++ tag ++ levelTag ++ now ++ info ++ joinSep "\n" text ++ trace

/-- Decomposition: `renderLog` is its pre-reset prefix followed by the reset escape. -/
theorem renderLog_eq_pre_append (env : Env) (st : ColorLogger) (level : MLevel)
    (compact nocolor raw time : Bool) (msg : List JSVal) :
    renderLog env st level compact nocolor raw time msg =
      renderLogPre env st level compact nocolor raw time msg ++ "\x1b[0m" := rfl

/-- C6 amended: for an enabled severity, the raw variant's return string
carries no severity color escape and no decoration at all — it is exactly
the reset escape, preceded only by the trace block when the severity is
`trace` — and the no-color variant's return string, provided the rendered
message parts, the tag and the parsed stack text are escape-free, contains
the escape character only in its single trailing reset code even when the
global `noColor` option is false. -/
theorem no_color_and_raw_escape_free (env : Env) (st : ColorLogger) (lvl : MLevel)
    (msg : List JSVal)
    (hen : IS_LEVEL_ENABLED st.logLevel (logLevelsGet (.str (levelName lvl))) = true)
    (hmsg : ∀ m ∈ msg, escChar ∉ (renderMsg env false m).data)
    (htag : escChar ∉ (jsToString st.options.tag).data)
    (hinfo : escChar ∉ (getTraceInfo env JSVal.undefined).1.data)
    (htr : escChar ∉ (getTraceInfo env JSVal.undefined).2.data) :
    (extRaw st env lvl msg).1 =
      some ((if lvl = MLevel.trace then
               "\n" ++ (getTraceInfo env JSVal.undefined).2 ++ "\n" else "") ++ "\x1b[0m") ∧
    ∃ pre, (extNoColor st env lvl msg).1 = some (pre ++ "\x1b[0m") ∧ escChar ∉ pre.data := by
  have hbody : escChar ∉ (joinSep "\n" (msg.map (renderMsg env false))).data := by
    apply escChar_not_mem_joinSep
    intro s hs
    rcases List.mem_map.mp hs with ⟨m, hm, rfl⟩
    exact hmsg m hm
  constructor
  · by_cases h : lvl = MLevel.trace
    · subst h
      simp [extRaw, output, renderLog, hen, joinSep, String.empty_append]
    · simp [extRaw, output, renderLog, hen, h, joinSep, String.empty_append]
  · refine ⟨renderLogPre env st lvl false true false false msg, ?_, ?_⟩
    · simp [extNoColor, output, hen, renderLog_eq_pre_append]
    · unfold renderLogPre
      simp only [Bool.or_true, Bool.not_false, Bool.true_and, Bool.and_true, Bool.false_or,
        Bool.false_and, Bool.or_false, Bool.false_eq_true, if_true, if_false,
        eq_self_iff_true]
      refine not_mem_data_append (not_mem_data_append (not_mem_data_append (not_mem_data_append
        (not_mem_data_append (not_mem_data_append ?_ ?_) ?_) ?_) ?_) ?_) ?_
      · decide
      · split_ifs
        · exact not_mem_data_append (not_mem_data_append (by decide) htag) (by decide)
        · decide
      · split_ifs
        · exact not_mem_data_append (escChar_not_mem_LEVEL_TO_TYPE lvl) (by decide)
        · decide
      · split_ifs
        · exact escChar_not_mem_formatNow env.date
        · decide
      · split_ifs
        · exact not_mem_data_append (not_mem_data_append (by decide) hinfo) (by decide)
        · decide
      · exact hbody
      · split_ifs
        · exact not_mem_data_append (not_mem_data_append (by decide) htr) (by decide)
        · decide

/-- Witness for `no_color_and_raw_escape_free` at a concrete logger, date,
stack and message. -/
theorem no_color_and_raw_escape_free_witness :
    IS_LEVEL_ENABLED defaultColorLogger.logLevel
      (logLevelsGet (.str (levelName .error))) = true ∧
    ((extRaw defaultColorLogger ⟨⟨2024, 0, 1, 0, 0, 0, 0⟩, "stk"⟩ .error [.str "hello"]).1 =
      some ((if MLevel.error = MLevel.trace then
               "\n" ++ (getTraceInfo ⟨⟨2024, 0, 1, 0, 0, 0, 0⟩, "stk"⟩ JSVal.undefined).2 ++ "\n"
             else "") ++ "\x1b[0m") ∧
     ∃ pre, (extNoColor defaultColorLogger ⟨⟨2024, 0, 1, 0, 0, 0, 0⟩, "stk"⟩ .error
         [.str "hello"]).1 = some (pre ++ "\x1b[0m") ∧ escChar ∉ pre.data) :=
  ⟨by decide,
   no_color_and_raw_escape_free ⟨⟨2024, 0, 1, 0, 0, 0, 0⟩, "stk"⟩ defaultColorLogger .error
     [.str "hello"] (by decide) (by decide) (by decide) (by decide) (by decide)⟩

/-- The first parsing loop, run over skipped lines: lines that are
ColorLogger's own or carry no locator are passed over, and the loop stops at
the first non-self line with a locator match — with the remaining-line list
still starting at that matched line. -/
theorem scanLocator_append (pre : List String)
    (hpre : ∀ p ∈ pre, isSelfLine p = true ∨ locatorSearch p = none)
    (l : String) (post : List String) (m : String)
    (hl : isSelfLine l = false) (hm : locatorSearch l = some m) :
    scanLocator (pre ++ l :: post) = some (m, l :: post) := by
  induction pre with
  | nil => simp [scanLocator, hl, hm]
  | cons p ps ih =>
    have hrest : scanLocator (ps ++ l :: post) = some (m, l :: post) :=
      ih (fun q hq => hpre q (List.mem_cons_of_mem p hq))
    rcases hpre p (by simp) with h | h
    · simpa [scanLocator, h] using hrest
    · by_cases hs : isSelfLine p = true
      · simpa [scanLocator, hs] using hrest
      · simp only [Bool.not_eq_true] at hs
        simpa [scanLocator, hs, h] using hrest

/-- The first parsing loop runs off the end when every line is ColorLogger's
own or carries no locator. -/
theorem scanLocator_none (lines : List String)
    (h : ∀ p ∈ lines, isSelfLine p = true ∨ locatorSearch p = none) :
    scanLocator lines = none := by
  induction lines with
  | nil => rfl
  | cons p ps ih =>
    have hrest : scanLocator ps = none :=
      ih (fun q hq => h q (List.mem_cons_of_mem p hq))
    rcases h p (by simp) with hp | hp
    · simpa [scanLocator, hp] using hrest
    · by_cases hs : isSelfLine p = true
      · simpa [scanLocator, hs] using hrest
      · simp only [Bool.not_eq_true] at hs
        simpa [scanLocator, hs, hp] using hrest

/-- C7 as stated is false: the second loop of `#PARSE_STACK_TRACE` starts at
the matched line itself (the `break` skips the counter update), so the trace
remainder includes the matched line, not only the lines after it. -/
theorem parse_stack_trace_counterexample :
    PARSE_STACK_TRACE "Error\n    at foo (bar.js:1:2)\n    at baz (qux.js:3:4)" =
      ("bar.js:1:2", "    at foo (bar.js:1:2)\n    at baz (qux.js:3:4)") ∧
    ("    at foo (bar.js:1:2)\n    at baz (qux.js:3:4)" : String) ≠
      "    at baz (qux.js:3:4)" :=
  ⟨by decide, by decide⟩

/-- C7 amended: the parser splits the stack into lines, skips every
ColorLogger line, takes as locator the captured group of the first remaining
line matching the path:line:column shape — or the literal
`"no stack trace"` when no line matches — and produces as trace remainder
the newline-joined sequence of the non-self lines from the matched line
onward, the matched line included. -/
theorem parse_stack_trace_amended :
    (∀ (pre post : List String) (l m : String),
      (∀ p ∈ pre, isSelfLine p = true ∨ locatorSearch p = none) →
      isSelfLine l = false → locatorSearch l = some m →
      parseStackLines (pre ++ l :: post) =
        (m, joinSep "\n" ((l :: post).filter (fun x => !isSelfLine x)))) ∧
    (∀ lines : List String,
      (∀ p ∈ lines, isSelfLine p = true ∨ locatorSearch p = none) →
      parseStackLines lines = ("no stack trace", "")) ∧
    (∀ stack : String, PARSE_STACK_TRACE stack = parseStackLines (jsSplit '\n' stack)) := by
  refine ⟨?_, ?_, fun stack => rfl⟩
  · intro pre post l m hpre hl hm
    rw [parseStackLines, scanLocator_append pre hpre l post m hl hm]
  · intro lines h
    rw [parseStackLines, scanLocator_none lines h]

/-- Witness for `parse_stack_trace_amended` on a concrete three-line stack:
the first line has no locator, the second line matches and opens the trace
remainder. -/
theorem parse_stack_trace_amended_witness :
    (∀ p ∈ ["Error"], isSelfLine p = true ∨ locatorSearch p = none) ∧
    isSelfLine "    at foo (bar.js:1:2)" = false ∧
    locatorSearch "    at foo (bar.js:1:2)" = some "bar.js:1:2" ∧
    parseStackLines ["Error", "    at foo (bar.js:1:2)", "    at baz (qux.js:3:4)"] =
      ("bar.js:1:2", "    at foo (bar.js:1:2)\n    at baz (qux.js:3:4)") := by
  refine ⟨by decide, by decide, by decide, ?_⟩
  have h := parse_stack_trace_amended.1 ["Error"] ["    at baz (qux.js:3:4)"]
    "    at foo (bar.js:1:2)" "bar.js:1:2" (by decide) (by decide) (by decide)
  simp only [List.cons_append, List.nil_append] at h
  rw [h]
  decide

/-- Witness for `raw_variant_return_sink_divergence`: a default logger's
`errorRaw('hello')`. -/
theorem raw_variant_return_sink_divergence_witness :
    (MLevel.error ≠ MLevel.trace) ∧
    IS_LEVEL_ENABLED defaultColorLogger.logLevel
      (logLevelsGet (.str (levelName .error))) = true ∧
    extRaw defaultColorLogger ⟨⟨2024, 0, 1, 0, 0, 0, 0⟩, "stk"⟩ .error [.str "hello"] =
      (some "\x1b[0m",
        if jsTruthy defaultColorLogger.options.consoleEnabled then
          [SinkWrite.rawVals [.str "hello"]] else []) :=
  ⟨by decide, by decide,
   (raw_variant_return_sink_divergence ⟨⟨2024, 0, 1, 0, 0, 0, 0⟩, "stk"⟩ defaultColorLogger
     .error [.str "hello"] (by decide) (by decide)).1⟩

/-- Reading below a freshly appended cell sees the old heap. -/
theorem hget_append_lt (h : Heap) (a : List (String × JSVal)) (r : Nat)
    (hr : r < h.objs.length) : hget ⟨h.objs ++ [a]⟩ r = hget h r := by
  simp [hget, List.getElem?_append_left hr]

/-- Reading the freshly appended cell sees the new object. -/
theorem hget_append_len (h : Heap) (a : List (String × JSVal)) :
    hget ⟨h.objs ++ [a]⟩ h.objs.length = a := by
  simp [hget, List.getElem?_concat_length]

/-- Mutating one cell leaves every other cell unchanged. -/
theorem hget_hset_ne (h : Heap) (i j : Nat) (o : List (String × JSVal)) (hij : i ≠ j) :
    hget (hset h i o) j = hget h j := by
  simp [hget, hset, List.getElem?_set_ne hij]

/-- C8: the options getter allocates a fresh object on every call — two
calls in a row return two distinct references, both distinct from the
logger's own `#options` object, holding equal field values (the JSON
round-trip of the internal state); mutating either returned copy leaves the
internal object untouched, and a getter call after such a mutation still
returns the original values. -/
theorem options_getter_independent_copies (h : Heap) (r : Nat)
    (o' : List (String × JSVal)) (hr : r < h.objs.length) :
    (getOptionsAlloc h r).2 ≠ r ∧
    hget (getOptionsAlloc h r).1 (getOptionsAlloc h r).2 = jsonRoundTripObj (hget h r) ∧
    (getOptionsAlloc (getOptionsAlloc h r).1 r).2 ≠ (getOptionsAlloc h r).2 ∧
    (getOptionsAlloc (getOptionsAlloc h r).1 r).2 ≠ r ∧
    hget (getOptionsAlloc (getOptionsAlloc h r).1 r).1 (getOptionsAlloc h r).2 =
      hget (getOptionsAlloc (getOptionsAlloc h r).1 r).1
        (getOptionsAlloc (getOptionsAlloc h r).1 r).2 ∧
    hget (hset (getOptionsAlloc (getOptionsAlloc h r).1 r).1 (getOptionsAlloc h r).2 o') r =
      hget h r ∧
    hget (hset (getOptionsAlloc (getOptionsAlloc h r).1 r).1
      (getOptionsAlloc (getOptionsAlloc h r).1 r).2 o') r = hget h r ∧
    hget (getOptionsAlloc
        (hset (getOptionsAlloc (getOptionsAlloc h r).1 r).1 (getOptionsAlloc h r).2 o') r).1
      (getOptionsAlloc
        (hset (getOptionsAlloc (getOptionsAlloc h r).1 r).1 (getOptionsAlloc h r).2 o') r).2 =
      jsonRoundTripObj (hget h r) := by
  have h1r : hget (getOptionsAlloc h r).1 r = hget h r := hget_append_lt h _ r hr
  have hA : hget (getOptionsAlloc h r).1 (getOptionsAlloc h r).2 =
      jsonRoundTripObj (hget h r) := hget_append_len h _
  have hlen1 : (getOptionsAlloc h r).1.objs.length = h.objs.length + 1 := by
    simp [getOptionsAlloc]
  have hl2 : (getOptionsAlloc h r).2 = h.objs.length := rfl
  have hl3 : (getOptionsAlloc (getOptionsAlloc h r).1 r).2 =
      (getOptionsAlloc h r).1.objs.length := rfl
  have hr1 : r < (getOptionsAlloc h r).1.objs.length := by omega
  have h2r : hget (getOptionsAlloc (getOptionsAlloc h r).1 r).1 r = hget h r := by
    have e1 : hget (getOptionsAlloc (getOptionsAlloc h r).1 r).1 r =
        hget (getOptionsAlloc h r).1 r := hget_append_lt (getOptionsAlloc h r).1 _ r hr1
    rw [e1, h1r]
  have hB : hget (getOptionsAlloc (getOptionsAlloc h r).1 r).1
      (getOptionsAlloc (getOptionsAlloc h r).1 r).2 = jsonRoundTripObj (hget h r) := by
    have e2 : hget (getOptionsAlloc (getOptionsAlloc h r).1 r).1
        (getOptionsAlloc (getOptionsAlloc h r).1 r).2 =
        jsonRoundTripObj (hget (getOptionsAlloc h r).1 r) :=
      hget_append_len (getOptionsAlloc h r).1 _
    rw [e2, h1r]
  have hA2 : hget (getOptionsAlloc (getOptionsAlloc h r).1 r).1 (getOptionsAlloc h r).2 =
      jsonRoundTripObj (hget h r) := by
    have e3 : hget (getOptionsAlloc (getOptionsAlloc h r).1 r).1 (getOptionsAlloc h r).2 =
        hget (getOptionsAlloc h r).1 (getOptionsAlloc h r).2 :=
      hget_append_lt (getOptionsAlloc h r).1 _ (getOptionsAlloc h r).2 (by omega)
    rw [e3, hA]
  have hm1 : hget (hset (getOptionsAlloc (getOptionsAlloc h r).1 r).1
      (getOptionsAlloc h r).2 o') r = hget h r := by
    rw [hget_hset_ne _ _ _ _ (by omega), h2r]
  refine ⟨by omega, hA, by omega, by omega, by rw [hA2, hB], hm1,
    by rw [hget_hset_ne _ _ _ _ (by omega), h2r], ?_⟩
  have e4 : hget (getOptionsAlloc
        (hset (getOptionsAlloc (getOptionsAlloc h r).1 r).1 (getOptionsAlloc h r).2 o') r).1
      (getOptionsAlloc
        (hset (getOptionsAlloc (getOptionsAlloc h r).1 r).1 (getOptionsAlloc h r).2 o') r).2 =
      jsonRoundTripObj (hget
        (hset (getOptionsAlloc (getOptionsAlloc h r).1 r).1 (getOptionsAlloc h r).2 o') r) :=
    hget_append_len _ _
  rw [e4, hm1]

/-- Witness for `options_getter_independent_copies` on a one-object heap
holding the logger's options record. -/
theorem options_getter_independent_copies_witness :
    (0 : Nat) < (⟨[[("consoleEnabled", JSVal.bool true)]]⟩ : Heap).objs.length ∧
    (getOptionsAlloc (⟨[[("consoleEnabled", JSVal.bool true)]]⟩ : Heap) 0).2 ≠ 0 :=
  ⟨by decide,
   (options_getter_independent_copies ⟨[[("consoleEnabled", .bool true)]]⟩ 0 []
     (by decide)).1⟩

/-- C10: the constructor leaves `tag` as `undefined`; `setOptions` keeps it
so whenever the supplied options carry no string-typed `tag`; and for any
such state the JSON round-trip of the getter drops the `tag` property
entirely, so the returned object exposes exactly the five boolean fields and
no `tag` key. -/
theorem options_copy_drops_unset_tag :
    defaultColorLogger.options.tag = JSVal.undefined ∧
    (∀ (st : ColorLogger) (opts : List (String × JSVal)),
      jsTypeof (objPropGet opts "tag") ≠ "string" →
      (setOptions st opts).options.tag = st.options.tag) ∧
    (∀ (ll : JSVal) (b1 b2 b3 b4 b5 : Bool),
      getOptions ⟨ll, ⟨.bool b1, .bool b2, .bool b3, .bool b4, .bool b5, .undefined⟩⟩ =
        [("consoleEnabled", .bool b1), ("noColor", .bool b2), ("showDate", .bool b3),
         ("showInfo", .bool b4), ("showLevel", .bool b5)]) ∧
    (∀ (ll : JSVal) (b1 b2 b3 b4 b5 : Bool),
      (getOptions ⟨ll, ⟨.bool b1, .bool b2, .bool b3, .bool b4, .bool b5,
        .undefined⟩⟩).lookup "tag" = none) := by
  refine ⟨rfl, ?_, fun ll b1 b2 b3 b4 b5 => rfl, fun ll b1 b2 b3 b4 b5 => rfl⟩
  intro st opts hne
  have hb : (jsTypeof (objPropGet opts "tag") == "string") = false :=
    beq_eq_false_iff_ne.mpr hne
  simp only [setOptions, hb, Bool.false_eq_true, if_false]
  split_ifs <;> rfl

/-- Witness for `options_copy_drops_unset_tag`: `setOptions` with an empty
options object (whose `tag` read yields `undefined`) keeps `tag` as it
was. -/
theorem options_copy_drops_unset_tag_witness :
    jsTypeof (objPropGet [] "tag") ≠ "string" ∧
    (setOptions defaultColorLogger []).options.tag = defaultColorLogger.options.tag :=
  ⟨by decide, options_copy_drops_unset_tag.2.1 defaultColorLogger [] (by decide)⟩
